import Mathlib

/-!
Verification of the x-userinfo header extractor (src/actix.rs).

The file embeds the extraction pipeline of `impl TryFrom<&HttpRequest> for
XUserInfo<T>` and the error/response mapping of `XUserInfoError`, together
with models of the three library calls the pipeline makes:

* `HeaderValue::to_str` (http crate): succeeds exactly when every byte of the
  header value is "visible ASCII" in the crate's sense, that is in 32..=126 or
  the tab byte 9.
* `BASE64_STANDARD.decode` (base64 crate): strict RFC 4648 standard-alphabet
  decoding with required canonical padding and rejected nonzero trailing bits.
  Error payloads (offsets) are tracked only approximately; no claim inspects
  them.
* `serde_json::from_slice::<T>`: the Rust code is generic over `T`, so the
  pipeline here is parameterized by an arbitrary decoder
  `List Nat → Except String T`; a small concrete codec for the test shape
  `CustomXUserInfo` is provided for concrete instances.

Bytes are modelled as `Nat` (with `< 256` bounds stated where they matter);
header values are byte lists, and strings appear only in names and rendered
error messages.
-/

deriving instance DecidableEq for Except

namespace ApisixRs

/-! ### Header value text validation (http crate HeaderValue::to_str) -/

/-- The http crate's byte predicate behind HeaderValue::to_str:
b >= 32 && b < 127 || b == 9 (tab). -/
def isVisibleAscii (b : Nat) : Bool :=
  (32 ≤ b && b < 127) || b == 9

/-- Model of http::header::ToStrError (an opaque unit-like struct). -/
inductive ToStrError where
  | mk
deriving DecidableEq, Repr

/-- Display of ToStrError in the http crate. -/
def ToStrError.display : ToStrError → String
  | .mk => "failed to convert header to a str"

/-- Model of HeaderValue::to_str: returns the value's bytes (as the bytes of
the resulting str) when all bytes are visible ASCII, an error otherwise. -/
def headerValueToStr (raw : List Nat) : Except ToStrError (List Nat) :=
  if raw.all isVisibleAscii then .ok raw else .error .mk

/-! ### Base64 (base64 crate, BASE64_STANDARD engine) -/

/-- Model of base64::DecodeError. Offsets and byte payloads are best-effort
(claims never inspect them). -/
inductive DecodeError where
  | InvalidByte (offset : Nat) (byte : Nat)
  | InvalidLength (len : Nat)
  | InvalidLastSymbol (offset : Nat) (byte : Nat)
  | InvalidPadding
deriving DecidableEq, Repr

/-- Display of base64::DecodeError. -/
def DecodeError.display : DecodeError → String
  | .InvalidByte o b => "Invalid symbol " ++ toString b ++ ", offset " ++ toString o ++ "."
  | .InvalidLength l => "Invalid input length: " ++ toString l
  | .InvalidLastSymbol o b =>
      "Invalid last symbol " ++ toString b ++ ", offset " ++ toString o ++ "."
  | .InvalidPadding => "Invalid padding"

/-- Value of a 6-bit index in the standard base64 alphabet, as an ASCII code
(A-Z, a-z, 0-9, +, /). -/
def b64CharN (i : Nat) : Nat :=
  if i < 26 then i + 65
  else if i < 52 then i + 71
  else if i < 62 then i - 4
  else if i = 62 then 43
  else 47

/-- Inverse of the standard alphabet: ASCII code to 6-bit index, none for
bytes outside the alphabet (including the padding byte 61). -/
def b64IndexN (c : Nat) : Option Nat :=
  if 65 ≤ c ∧ c ≤ 90 then some (c - 65)
  else if 97 ≤ c ∧ c ≤ 122 then some (c - 71)
  else if 48 ≤ c ∧ c ≤ 57 then some (c + 4)
  else if c = 43 then some 62
  else if c = 47 then some 63
  else none

/-- Standard padded base64 encoding of a byte list, as a list of ASCII codes
(61 is the padding byte). Models BASE64_STANDARD.encode. -/
def b64Encode : List Nat → List Nat
  | [] => []
  | [a] => [b64CharN (a / 4), b64CharN (a % 4 * 16), 61, 61]
  | [a, b] => [b64CharN (a / 4), b64CharN (a % 4 * 16 + b / 16), b64CharN (b % 16 * 4), 61]
  | a :: b :: c :: rest =>
      b64CharN (a / 4) :: b64CharN (a % 4 * 16 + b / 16) ::
      b64CharN (b % 16 * 4 + c / 64) :: b64CharN (c % 64) :: b64Encode rest

/-- Decode a non-final 4-character base64 chunk (no padding allowed). -/
def decodeFullChunk (c1 c2 c3 c4 : Nat) : Except DecodeError (List Nat) :=
  match b64IndexN c1 with
  | none => .error (.InvalidByte 0 c1)
  | some i1 =>
    match b64IndexN c2 with
    | none => .error (.InvalidByte 1 c2)
    | some i2 =>
      match b64IndexN c3 with
      | none => .error (.InvalidByte 2 c3)
      | some i3 =>
        match b64IndexN c4 with
        | none => .error (.InvalidByte 3 c4)
        | some i4 => .ok [i1 * 4 + i2 / 16, i2 % 16 * 16 + i3 / 4, i3 % 4 * 64 + i4]

/-- Decode the final 4-character base64 chunk: either four alphabet symbols,
or two symbols and "==", or three symbols and "="; canonical (zero) trailing
bits are required, matching decode_allow_trailing_bits = false. -/
def decodeLastChunk (c1 c2 c3 c4 : Nat) : Except DecodeError (List Nat) :=
  match b64IndexN c1 with
  | none => .error (.InvalidByte 0 c1)
  | some i1 =>
    match b64IndexN c2 with
    | none => .error (.InvalidByte 1 c2)
    | some i2 =>
      if c3 = 61 then
        if c4 = 61 then
          if i2 % 16 = 0 then .ok [i1 * 4 + i2 / 16]
          else .error (.InvalidLastSymbol 1 c2)
        else .error (.InvalidByte 2 c3)
      else
        match b64IndexN c3 with
        | none => .error (.InvalidByte 2 c3)
        | some i3 =>
          if c4 = 61 then
            if i3 % 4 = 0 then .ok [i1 * 4 + i2 / 16, i2 % 16 * 16 + i3 / 4]
            else .error (.InvalidLastSymbol 2 c3)
          else
            match b64IndexN c4 with
            | none => .error (.InvalidByte 3 c4)
            | some i4 => .ok [i1 * 4 + i2 / 16, i2 % 16 * 16 + i3 / 4, i3 % 4 * 64 + i4]

/-- Model of BASE64_STANDARD.decode on the bytes of the input str: strict
standard-alphabet decoding, padding required (canonical), input length must
be a multiple of 4. -/
def b64Decode : List Nat → Except DecodeError (List Nat)
  | [] => .ok []
  | [c1, c2, c3, c4] => decodeLastChunk c1 c2 c3 c4
  | c1 :: c2 :: c3 :: c4 :: r :: rest =>
    match decodeFullChunk c1 c2 c3 c4 with
    | .error e => .error e
    | .ok chunk =>
      match b64Decode (r :: rest) with
      | .error e => .error e
      | .ok bs => .ok (chunk ++ bs)
  | other => .error (.InvalidLength other.length)

/-- A byte string is valid (canonical, padded, standard-alphabet) base64 iff
it is the encoding of some byte list. -/
def IsValidStdB64 (s : List Nat) : Prop :=
  ∃ bs : List Nat, (∀ b ∈ bs, b < 256) ∧ b64Encode bs = s

/-! ### Requests and header lookup -/

/-- Model of an actix_web::HttpRequest: the header mapping as an association
list of (name, value bytes), in insertion order, plus request state the
extractor never reads. -/
structure HttpRequest where
  method : String
  uri : String
  headers : List (String × List Nat)
deriving DecidableEq, Repr

/-- Modelled from the spec: the designated header name constant
X_USER_INFO_HEADER lives in the crate root (lib.rs), which is not under
src/; the spec fixes the header name as x-userinfo. -/
def X_USER_INFO_HEADER : String := "x-userinfo"

/-- ASCII lowercase of one character, as http::HeaderName folds header
names. -/
def asciiLowerChar (c : Char) : Char :=
  if 65 ≤ c.toNat ∧ c.toNat ≤ 90 then Char.ofNat (c.toNat + 32) else c

/-- ASCII lowercase of a string. -/
def asciiLower (s : String) : String :=
  String.mk (s.data.map asciiLowerChar)

/-- Model of req.headers().get(name): first header whose name matches
case-insensitively (http::HeaderMap::get returns the first of multiple
values; header names compare after ASCII case-folding). -/
def headerGet (req : HttpRequest) (name : String) : Option (List Nat) :=
  (req.headers.find? (fun p => asciiLower p.1 == asciiLower name)).map (fun p => p.2)

/-! ### Error type and response mapping (XUserInfoError) -/

/-- Model of XUserInfoError. The serde_json::Error payload is modelled by its
rendered message. -/
inductive XUserInfoError where
  | MissingHeader
  | ToStringError (e : ToStrError)
  | Base64DecodeError (e : DecodeError)
  | JsonDecodeError (e : String)
deriving DecidableEq, Repr

/-- The thiserror-derived Display impl of XUserInfoError. -/
def XUserInfoError.display : XUserInfoError → String
  | .MissingHeader => "x-userinfo header is missing"
  | .ToStringError e => "invalid x-userinfo header: " ++ e.display
  | .Base64DecodeError e => "invalid x-userinfo, base64 decode error: " ++ e.display
  | .JsonDecodeError e => "invalid x-userinfo, json decode error: " ++ e

/-- actix_web::http::StatusCode::BAD_REQUEST. -/
def STATUS_BAD_REQUEST : Nat := 400

/-- ContentType::plaintext() renders as mime::TEXT_PLAIN_UTF_8. -/
def contentTypePlaintext : String := "text/plain; charset=utf-8"

/-- Model of an actix_web::HttpResponse as far as error_response builds one:
status code, Content-Type header, body. -/
structure HttpResponseModel where
  status : Nat
  contentType : String
  body : String
deriving DecidableEq, Repr

/-- XUserInfoError::status_code from the ResponseError impl. -/
def XUserInfoError.status_code (_ : XUserInfoError) : Nat := STATUS_BAD_REQUEST

/-- XUserInfoError::error_response from the ResponseError impl:
HttpResponse::build(self.status_code()).insert_header(ContentType::plaintext())
.body(self.to_string()). -/
def XUserInfoError.error_response (e : XUserInfoError) : HttpResponseModel :=
  { status := e.status_code, contentType := contentTypePlaintext, body := e.display }

/-! ### The extractor -/

/-- The transparent wrapper struct XUserInfo<T>; Deref exposes val. -/
structure XUserInfo (T : Type) where
  val : T
deriving DecidableEq, Repr

/-- Model of impl TryFrom<&HttpRequest> for XUserInfo<T>. The Rust code is
generic over T: DeserializeOwned; here jsonDecode stands for
serde_json::from_slice::<T>. -/
def try_from (T : Type) (jsonDecode : List Nat → Except String T) (req : HttpRequest) :
    Except XUserInfoError (XUserInfo T) :=
  match headerGet req X_USER_INFO_HEADER with
  | none => .error .MissingHeader
  | some raw =>
    match headerValueToStr raw with
    | .error e => .error (.ToStringError e)
    | .ok header =>
      match b64Decode header with
      | .error e => .error (.Base64DecodeError e)
      | .ok base64_decoded =>
        match jsonDecode base64_decoded with
        | .error e => .error (.JsonDecodeError e)
        | .ok v => .ok (XUserInfo.mk v)

/-- Model of actix_web::dev::Payload as far as from_request uses it (it is
ignored). -/
inductive Payload where
  | None
deriving DecidableEq, Repr

/-- Model of std::future::Ready: an already-resolved future holding its
value. -/
structure Ready (α : Type) where
  value : α
deriving DecidableEq, Repr

/-- std::future::ready. -/
def ready {α : Type} (a : α) : Ready α := ⟨a⟩

/-- Model of impl FromRequest for XUserInfo<T>: fn from_request(req, _payload)
is ready(req.try_into()). -/
def from_request (T : Type) (jsonDecode : List Nat → Except String T)
    (req : HttpRequest) (_payload : Payload) :
    Ready (Except XUserInfoError (XUserInfo T)) :=
  ready (try_from T jsonDecode req)

/-! ### Concrete target shape and JSON codec

The Rust tests deserialize into CustomXUserInfo { sub: String, name: String,
iat: u64 }. The codec below is a partial model of serde_json on this shape:
it serializes in declared-field order and parses flat objects of string and
unsigned-integer members written without escapes or whitespace (every input
that appears in a concrete instance below is in this fragment); anything
outside the fragment is rejected with an error, as serde_json rejects
malformed input. -/

/-- The test target shape from src/actix.rs: sub, name, iat. -/
structure CustomXUserInfo where
  sub : String
  name : String
  iat : Nat
deriving DecidableEq, Repr

/-- UTF-8 bytes of a string; on the ASCII strings used here this matches
Rust's str::as_bytes. -/
def strBytes (s : String) : List Nat := s.data.map Char.toNat

/-- serde_json serialization of CustomXUserInfo (derived Serialize writes
fields in declaration order). -/
def jsonEncodeCustom (v : CustomXUserInfo) : List Nat :=
  strBytes ("\x7b\"sub\":\"" ++ v.sub ++ "\",\"name\":\"" ++ v.name ++
    "\",\"iat\":" ++ toString v.iat ++ "\x7d")

/-- A primitive JSON value: a string or an unsigned integer. -/
inductive JsonPrim where
  | str (s : String)
  | num (n : Nat)
deriving DecidableEq, Repr

/-- Parse the body of a JSON string after the opening quote (byte 34);
escapes (92) and non-ASCII bytes are outside the modelled fragment. -/
def parseJString : List Nat → Except String (String × List Nat)
  | [] => .error "EOF while parsing a string"
  | b :: rest =>
    if b = 34 then .ok ("", rest)
    else if b = 92 || b < 32 || 127 ≤ b then .error "unsupported string content"
    else
      match parseJString rest with
      | .error e => .error e
      | .ok (s, r) => .ok (String.mk (Char.ofNat b :: s.data), r)

/-- Split leading decimal digit bytes (48-57) from the rest. -/
def takeDigits : List Nat → List Nat × List Nat
  | [] => ([], [])
  | b :: rest =>
    if 48 ≤ b && b ≤ 57 then
      let p := takeDigits rest
      (b :: p.1, p.2)
    else ([], b :: rest)

/-- Decimal value of a digit-byte list, accumulator style. -/
def digitsToNat (acc : Nat) : List Nat → Nat
  | [] => acc
  | d :: rest => digitsToNat (acc * 10 + (d - 48)) rest

/-- Parse an unsigned JSON integer. -/
def parseJNum (l : List Nat) : Except String (Nat × List Nat) :=
  match takeDigits l with
  | ([], _) => .error "expected value"
  | (ds, rest) => .ok (digitsToNat 0 ds, rest)

/-- Parse a primitive JSON value: a quoted string or an unsigned integer. -/
def parseJValue (l : List Nat) : Except String (JsonPrim × List Nat) :=
  match l with
  | 34 :: rest =>
    match parseJString rest with
    | .error e => .error e
    | .ok (s, r) => .ok (.str s, r)
  | _ =>
    match parseJNum l with
    | .error e => .error e
    | .ok (n, r) => .ok (.num n, r)

/-- Parse the members of a JSON object after the opening brace, for a
non-empty member list: key, colon (58), value, then comma (44) and more
members or the closing brace (125). Fuel bounds the recursion. -/
def parseJMembers : Nat → List Nat → Except String (List (String × JsonPrim) × List Nat)
  | 0, _ => .error "recursion limit exceeded"
  | fuel + 1, input =>
    match input with
    | 34 :: rest =>
      match parseJString rest with
      | .error e => .error e
      | .ok (key, r1) =>
        match r1 with
        | 58 :: r2 =>
          match parseJValue r2 with
          | .error e => .error e
          | .ok (v, r3) =>
            match r3 with
            | 44 :: r4 =>
              match parseJMembers fuel r4 with
              | .error e => .error e
              | .ok (fs, r5) => .ok ((key, v) :: fs, r5)
            | 125 :: r4 => .ok ([(key, v)], r4)
            | _ => .error "expected comma or closing brace"
        | _ => .error "expected colon"
    | _ => .error "key must be a string"

/-- Parse a whole byte list as one flat JSON object with no trailing bytes. -/
def parseJObject (input : List Nat) : Except String (List (String × JsonPrim)) :=
  match input with
  | 123 :: rest =>
    match rest with
    | [125] => .ok []
    | _ =>
      match parseJMembers (rest.length + 1) rest with
      | .error e => .error e
      | .ok (fs, r) => if r = [] then .ok fs else .error "trailing characters"
  | _ => .error "expected an object"

/-- First member with the given key, as serde field lookup. -/
def getField (fs : List (String × JsonPrim)) (k : String) : Option JsonPrim :=
  (fs.find? (fun p => p.1 == k)).map (fun p => p.2)

/-- serde_json::from_slice::<CustomXUserInfo> on the modelled fragment:
requires members sub (string), name (string), iat (unsigned integer);
reports missing or wrongly typed fields. -/
def parseCustom (input : List Nat) : Except String CustomXUserInfo :=
  match parseJObject input with
  | .error e => .error e
  | .ok fs =>
    match getField fs "sub" with
    | none => .error "missing field `sub`"
    | some (.num _) => .error "invalid type: integer, expected a string"
    | some (.str sub) =>
      match getField fs "name" with
      | none => .error "missing field `name`"
      | some (.num _) => .error "invalid type: integer, expected a string"
      | some (.str name) =>
        match getField fs "iat" with
        | none => .error "missing field `iat`"
        | some (.str _) => .error "invalid type: string, expected u64"
        | some (.num iat) => .ok ⟨sub, name, iat⟩

/-- The concrete test value from tests::test_x_user_info. -/
def testValue : CustomXUserInfo :=
  { sub := "test sub", name := "test name", iat := 1516239022 }

/-- A request carrying the base64-encoded JSON of testValue, as built by
TestRequest in the Rust test. -/
def reqTest : HttpRequest :=
  { method := "GET", uri := "/",
    headers := [(X_USER_INFO_HEADER, b64Encode (jsonEncodeCustom testValue))] }

/-- A request with no x-userinfo header. -/
def reqNoHeader : HttpRequest :=
  { method := "GET", uri := "/", headers := [("accept", strBytes "*/*")] }

/-- A request whose x-userinfo value is text but not base64 (four bytes 33,
the character !). -/
def reqBadB64 : HttpRequest :=
  { method := "GET", uri := "/", headers := [(X_USER_INFO_HEADER, [33, 33, 33, 33])] }

/-- A request whose x-userinfo value holds a non-ASCII byte (195, 169 is the
UTF-8 encoding of a Latin small letter e with acute). -/
def reqNonAscii : HttpRequest :=
  { method := "GET", uri := "/", headers := [(X_USER_INFO_HEADER, [195, 169])] }

/-- A request whose x-userinfo value is valid base64 of the bytes of an empty
JSON object, which lacks every field CustomXUserInfo requires. -/
def reqEmptyObj : HttpRequest :=
  { method := "GET", uri := "/",
    headers := [(X_USER_INFO_HEADER, b64Encode (strBytes "\x7b\x7d"))] }

/-- A request differing from reqTest only in state the extractor never reads
(method and target). -/
def reqTestPost : HttpRequest :=
  { method := "POST", uri := "/admin", headers := reqTest.headers }

/-- A request carrying two x-userinfo headers behind an unrelated header: the
first occurrence is differently cased and holds a valid value, the second is
not base64. -/
def reqMixedHeaders : HttpRequest :=
  { method := "GET", uri := "/",
    headers := [("accept", strBytes "*/*"),
                ("X-UserInfo", b64Encode (jsonEncodeCustom testValue)),
                (X_USER_INFO_HEADER, [33, 33, 33, 33])] }

/-! ### Base64 alphabet lemmas -/

theorem b64CharN_bounds (i : Nat) :
    32 ≤ b64CharN i ∧ b64CharN i < 127 ∧ b64CharN i ≠ 61 := by
  unfold b64CharN
  repeat' split
  all_goals omega

theorem b64CharN_visible (i : Nat) : isVisibleAscii (b64CharN i) = true := by
  have h := b64CharN_bounds i
  simp [isVisibleAscii]
  omega

theorem b64CharN_ne_pad (i : Nat) : b64CharN i ≠ 61 :=
  (b64CharN_bounds i).2.2

theorem b64IndexN_b64CharN : ∀ i < 64, b64IndexN (b64CharN i) = some i := by decide

theorem b64IndexN_some {c i : Nat} (h : b64IndexN c = some i) :
    i < 64 ∧ b64CharN i = c := by
  unfold b64IndexN at h
  unfold b64CharN
  repeat' split at h
  all_goals simp_all
  all_goals repeat' split
  all_goals omega

theorem b64IndexN_pad : b64IndexN 61 = none := by decide

/-- Every byte the encoder emits is visible ASCII. -/
theorem b64Encode_all_visible (bs : List Nat) :
    (b64Encode bs).all isVisibleAscii = true := by
  induction bs using b64Encode.induct with
  | case1 => rfl
  | case2 a =>
    have h1 := b64CharN_bounds (a / 4)
    have h2 := b64CharN_bounds (a % 4 * 16)
    simp [b64Encode, isVisibleAscii]
    omega
  | case3 a b =>
    have h1 := b64CharN_bounds (a / 4)
    have h2 := b64CharN_bounds (a % 4 * 16 + b / 16)
    have h3 := b64CharN_bounds (b % 16 * 4)
    simp [b64Encode, isVisibleAscii]
    omega
  | case4 a b c rest ih => simp [b64Encode, b64CharN_visible, ih]

theorem b64Encode_ne_nil {bs : List Nat} (h : bs ≠ []) : b64Encode bs ≠ [] := by
  match bs, h with
  | [a], _ => simp [b64Encode]
  | [a, b], _ => simp [b64Encode]
  | a :: b :: c :: rest, _ => simp [b64Encode]

/-- Decoding inverts encoding on byte lists. -/
theorem b64Decode_b64Encode (bs : List Nat) (hb : ∀ x ∈ bs, x < 256) :
    b64Decode (b64Encode bs) = .ok bs := by
  induction bs using b64Encode.induct with
  | case1 => rfl
  | case2 a =>
    have ha : a < 256 := hb a (by simp)
    have h1 : b64IndexN (b64CharN (a / 4)) = some (a / 4) :=
      b64IndexN_b64CharN _ (by omega)
    have h2 : b64IndexN (b64CharN (a % 4 * 16)) = some (a % 4 * 16) :=
      b64IndexN_b64CharN _ (by omega)
    simp [b64Encode, b64Decode, decodeLastChunk, h1, h2, Nat.mul_mod_left]
    omega
  | case3 a b =>
    have ha : a < 256 := hb a (by simp)
    have hbb : b < 256 := hb b (by simp)
    have h1 : b64IndexN (b64CharN (a / 4)) = some (a / 4) :=
      b64IndexN_b64CharN _ (by omega)
    have h2 : b64IndexN (b64CharN (a % 4 * 16 + b / 16)) = some (a % 4 * 16 + b / 16) :=
      b64IndexN_b64CharN _ (by omega)
    have h3 : b64IndexN (b64CharN (b % 16 * 4)) = some (b % 16 * 4) :=
      b64IndexN_b64CharN _ (by omega)
    have hne : b64CharN (b % 16 * 4) ≠ 61 := b64CharN_ne_pad _
    simp [b64Encode, b64Decode, decodeLastChunk, h1, h2, h3, hne, Nat.mul_mod_left]
    omega
  | case4 a b c rest ih =>
    have ha : a < 256 := hb a (by simp)
    have hbb : b < 256 := hb b (by simp)
    have hc : c < 256 := hb c (by simp)
    have h1 : b64IndexN (b64CharN (a / 4)) = some (a / 4) :=
      b64IndexN_b64CharN _ (by omega)
    have h2 : b64IndexN (b64CharN (a % 4 * 16 + b / 16)) = some (a % 4 * 16 + b / 16) :=
      b64IndexN_b64CharN _ (by omega)
    have h3 : b64IndexN (b64CharN (b % 16 * 4 + c / 64)) = some (b % 16 * 4 + c / 64) :=
      b64IndexN_b64CharN _ (by omega)
    have h4 : b64IndexN (b64CharN (c % 64)) = some (c % 64) :=
      b64IndexN_b64CharN _ (by omega)
    have ihr : b64Decode (b64Encode rest) = .ok rest := by
      apply ih
      intro x hx
      exact hb x (by simp [hx])
    cases rest with
    | nil =>
      have hne3 : b64CharN (b % 16 * 4 + c / 64) ≠ 61 := b64CharN_ne_pad _
      have hne4 : b64CharN (c % 64) ≠ 61 := b64CharN_ne_pad _
      simp [b64Encode, b64Decode, decodeLastChunk, h1, h2, h3, h4, hne3, hne4]
      omega
    | cons r rs =>
      obtain ⟨y, ys, hy⟩ : ∃ y ys, b64Encode (r :: rs) = y :: ys := by
        cases hEnc : b64Encode (r :: rs) with
        | nil => exact absurd hEnc (b64Encode_ne_nil (by simp))
        | cons y ys => exact ⟨y, ys, rfl⟩
      rw [hy] at ihr
      simp only [b64Encode, hy]
      simp [b64Decode, decodeFullChunk, h1, h2, h3, h4, ihr]
      omega

/-- Inversion for a successful non-final chunk: the chunk is three bytes whose
re-encoding is the four input symbols. -/
theorem decodeFullChunk_ok {c1 c2 c3 c4 : Nat} {ch : List Nat}
    (h : decodeFullChunk c1 c2 c3 c4 = .ok ch) :
    ∃ x y z, ch = [x, y, z] ∧ x < 256 ∧ y < 256 ∧ z < 256 ∧
      b64CharN (x / 4) = c1 ∧ b64CharN (x % 4 * 16 + y / 16) = c2 ∧
      b64CharN (y % 16 * 4 + z / 64) = c3 ∧ b64CharN (z % 64) = c4 := by
  cases h1 : b64IndexN c1 with
  | none => simp [decodeFullChunk, h1] at h
  | some i1 =>
  cases h2 : b64IndexN c2 with
  | none => simp [decodeFullChunk, h1, h2] at h
  | some i2 =>
  cases h3 : b64IndexN c3 with
  | none => simp [decodeFullChunk, h1, h2, h3] at h
  | some i3 =>
  cases h4 : b64IndexN c4 with
  | none => simp [decodeFullChunk, h1, h2, h3, h4] at h
  | some i4 =>
  simp [decodeFullChunk, h1, h2, h3, h4] at h
  obtain ⟨hi1, hc1⟩ := b64IndexN_some h1
  obtain ⟨hi2, hc2⟩ := b64IndexN_some h2
  obtain ⟨hi3, hc3⟩ := b64IndexN_some h3
  obtain ⟨hi4, hc4⟩ := b64IndexN_some h4
  refine ⟨i1 * 4 + i2 / 16, i2 % 16 * 16 + i3 / 4, i3 % 4 * 64 + i4, h.symm,
    by omega, by omega, by omega, ?_, ?_, ?_, ?_⟩
  · have e : (i1 * 4 + i2 / 16) / 4 = i1 := by omega
    rw [e, hc1]
  · have e : (i1 * 4 + i2 / 16) % 4 * 16 + (i2 % 16 * 16 + i3 / 4) / 16 = i2 := by omega
    rw [e, hc2]
  · have e : (i2 % 16 * 16 + i3 / 4) % 16 * 4 + (i3 % 4 * 64 + i4) / 64 = i3 := by omega
    rw [e, hc3]
  · have e : (i3 % 4 * 64 + i4) % 64 = i4 := by omega
    rw [e, hc4]

/-- Inversion for a successful final chunk: the decoded bytes re-encode to
exactly the four input symbols (canonical padding included). -/
theorem decodeLastChunk_ok {c1 c2 c3 c4 : Nat} {ch : List Nat}
    (h : decodeLastChunk c1 c2 c3 c4 = .ok ch) :
    b64Encode ch = [c1, c2, c3, c4] ∧ ∀ x ∈ ch, x < 256 := by
  cases h1 : b64IndexN c1 with
  | none => simp [decodeLastChunk, h1] at h
  | some i1 =>
  cases h2 : b64IndexN c2 with
  | none => simp [decodeLastChunk, h1, h2] at h
  | some i2 =>
  obtain ⟨hi1, hc1⟩ := b64IndexN_some h1
  obtain ⟨hi2, hc2⟩ := b64IndexN_some h2
  by_cases hc3pad : c3 = 61
  · by_cases hc4pad : c4 = 61
    · by_cases hrem : i2 % 16 = 0
      · simp [decodeLastChunk, h1, h2, hc3pad, hc4pad, hrem] at h
        subst hc3pad hc4pad
        rw [← h]
        constructor
        · show b64Encode [i1 * 4 + i2 / 16] = _
          have e1 : (i1 * 4 + i2 / 16) / 4 = i1 := by omega
          have e2 : (i1 * 4 + i2 / 16) % 4 * 16 = i2 := by omega
          simp [b64Encode, e1, e2, hc1, hc2]
        · intro x hx
          simp at hx
          omega
      · simp [decodeLastChunk, h1, h2, hc3pad, hc4pad, hrem] at h
    · simp [decodeLastChunk, h1, h2, hc3pad, hc4pad] at h
  · cases h3 : b64IndexN c3 with
    | none => simp [decodeLastChunk, h1, h2, hc3pad, h3] at h
    | some i3 =>
    obtain ⟨hi3, hc3⟩ := b64IndexN_some h3
    by_cases hc4pad : c4 = 61
    · by_cases hrem : i3 % 4 = 0
      · simp [decodeLastChunk, h1, h2, hc3pad, h3, hc4pad, hrem] at h
        subst hc4pad
        rw [← h]
        constructor
        · show b64Encode [i1 * 4 + i2 / 16, i2 % 16 * 16 + i3 / 4] = _
          have e1 : (i1 * 4 + i2 / 16) / 4 = i1 := by omega
          have e2 : (i1 * 4 + i2 / 16) % 4 * 16 + (i2 % 16 * 16 + i3 / 4) / 16 = i2 := by
            omega
          have e3 : (i2 % 16 * 16 + i3 / 4) % 16 * 4 = i3 := by omega
          simp [b64Encode, e1, e2, e3, hc1, hc2, hc3]
        · intro x hx
          simp at hx
          omega
      · simp [decodeLastChunk, h1, h2, hc3pad, h3, hc4pad, hrem] at h
    · cases h4 : b64IndexN c4 with
      | none => simp [decodeLastChunk, h1, h2, hc3pad, h3, hc4pad, h4] at h
      | some i4 =>
      obtain ⟨hi4, hc4⟩ := b64IndexN_some h4
      simp [decodeLastChunk, h1, h2, hc3pad, h3, hc4pad, h4] at h
      rw [← h]
      constructor
      · show b64Encode [i1 * 4 + i2 / 16, i2 % 16 * 16 + i3 / 4, i3 % 4 * 64 + i4] = _
        have e1 : (i1 * 4 + i2 / 16) / 4 = i1 := by omega
        have e2 : (i1 * 4 + i2 / 16) % 4 * 16 + (i2 % 16 * 16 + i3 / 4) / 16 = i2 := by
          omega
        have e3 : (i2 % 16 * 16 + i3 / 4) % 16 * 4 + (i3 % 4 * 64 + i4) / 64 = i3 := by
          omega
        have e4 : (i3 % 4 * 64 + i4) % 64 = i4 := by omega
        simp [b64Encode, e1, e2, e3, e4, hc1, hc2, hc3, hc4]
      · intro x hx
        simp at hx
        omega

/-- Canonicity: a successfully decoded string is the encoding of its result,
so the decoder accepts exactly the canonical padded encodings. -/
theorem b64Encode_of_b64Decode_ok (s : List Nat) :
    ∀ bs, b64Decode s = .ok bs → b64Encode bs = s ∧ ∀ x ∈ bs, x < 256 := by
  induction s using b64Decode.induct with
  | case1 =>
    intro bs h
    simp [b64Decode] at h
    subst h
    simp [b64Encode]
  | case2 c1 c2 c3 c4 =>
    intro bs h
    exact decodeLastChunk_ok h
  | case3 c1 c2 c3 c4 r rest e he =>
    intro bs h
    simp [b64Decode, he] at h
  | case4 c1 c2 c3 c4 r rest ch hch e he ih =>
    intro bs h
    simp [b64Decode, hch, he] at h
  | case5 c1 c2 c3 c4 r rest ch hch bs' hbs' ih =>
    intro bs h
    simp [b64Decode, hch, hbs'] at h
    obtain ⟨henc, hbound⟩ := ih bs' hbs'
    obtain ⟨x, y, z, hchEq, hx, hy, hz, e1, e2, e3, e4⟩ := decodeFullChunk_ok hch
    subst hchEq
    rw [← h]
    constructor
    · show b64Encode (x :: y :: z :: bs') = _
      simp [b64Encode, henc, e1, e2, e3, e4]
    · intro w hw
      simp at hw
      rcases hw with hw | hw | hw | hw
      · omega
      · omega
      · omega
      · exact hbound w hw
  | case6 other h1 h2 h3 =>
    intro bs h
    rw [b64Decode] at h
    · simp at h
    · exact h1
    · exact h2
    · exact h3

/-- A string that is not a canonical padded standard-base64 encoding cannot
decode successfully. -/
theorem b64Decode_err_of_not_valid {s : List Nat} (h : ¬ IsValidStdB64 s) :
    ∃ e, b64Decode s = .error e := by
  cases hd : b64Decode s with
  | ok bs =>
    obtain ⟨henc, hb⟩ := b64Encode_of_b64Decode_ok s bs hd
    exact absurd ⟨bs, hb, henc⟩ h
  | error e => exact ⟨e, rfl⟩

/-! ### Claim theorems -/

/-- C1: round-trip success. For every value v of a JSON-deserializable target
shape T (its codec round-trips at v, to bytes), serializing v to JSON,
encoding with standard padded base64 and placing the result as the value of
the x-userinfo header makes extraction succeed with exactly v. -/
theorem extraction_roundTrip (T : Type) (jsonDecode : List Nat → Except String T)
    (jsonEncode : T → List Nat) (v : T) (req : HttpRequest)
    (hcodec : jsonDecode (jsonEncode v) = .ok v)
    (hbytes : ∀ x ∈ jsonEncode v, x < 256)
    (hreq : headerGet req X_USER_INFO_HEADER = some (b64Encode (jsonEncode v))) :
    try_from T jsonDecode req = .ok ⟨v⟩ := by
  unfold try_from
  rw [hreq]
  simp [headerValueToStr, b64Encode_all_visible, b64Decode_b64Encode _ hbytes, hcodec]

/-- Witness for C1 at the concrete test scenario of tests::test_x_user_info. -/
theorem extraction_roundTrip_witness :
    try_from CustomXUserInfo parseCustom reqTest = .ok ⟨testValue⟩ :=
  extraction_roundTrip CustomXUserInfo parseCustom jsonEncodeCustom testValue reqTest
    (by decide) (by decide) (by decide)

/-- C2: a request with no x-userinfo header extracts to MissingHeader, whose
mapped response is a bad request with body exactly
"x-userinfo header is missing". -/
theorem missingHeader_error (T : Type) (jsonDecode : List Nat → Except String T)
    (req : HttpRequest)
    (h : ∀ p ∈ req.headers, asciiLower p.1 ≠ asciiLower X_USER_INFO_HEADER) :
    try_from T jsonDecode req = .error .MissingHeader ∧
    XUserInfoError.MissingHeader.error_response =
      { status := STATUS_BAD_REQUEST, contentType := contentTypePlaintext,
        body := "x-userinfo header is missing" } := by
  have hget : headerGet req X_USER_INFO_HEADER = none := by
    unfold headerGet
    rw [List.find?_eq_none.mpr]
    · rfl
    · intro p hp
      simp only [beq_iff_eq]
      exact fun hc => h p hp hc
  unfold try_from
  rw [hget]
  exact ⟨rfl, rfl⟩

/-- Witness for C2 at a request with only an accept header. -/
theorem missingHeader_error_witness :
    try_from CustomXUserInfo parseCustom reqNoHeader = .error .MissingHeader ∧
    XUserInfoError.MissingHeader.error_response =
      { status := STATUS_BAD_REQUEST, contentType := contentTypePlaintext,
        body := "x-userinfo header is missing" } :=
  missingHeader_error CustomXUserInfo parseCustom reqNoHeader (by decide)

/-- C3: every extraction error maps to a response with bad-request status,
plain-text content type, and a body equal to the error's rendered message in
the exact spec formats. -/
theorem error_response_spec (e : XUserInfoError) :
    e.error_response.status = STATUS_BAD_REQUEST ∧
    e.error_response.contentType = contentTypePlaintext ∧
    e.error_response.body = e.display ∧
    XUserInfoError.MissingHeader.display = "x-userinfo header is missing" ∧
    (∀ te : ToStrError, (XUserInfoError.ToStringError te).display =
        "invalid x-userinfo header: " ++ te.display) ∧
    (∀ be : DecodeError, (XUserInfoError.Base64DecodeError be).display =
        "invalid x-userinfo, base64 decode error: " ++ be.display) ∧
    (∀ je : String, (XUserInfoError.JsonDecodeError je).display =
        "invalid x-userinfo, json decode error: " ++ je) :=
  ⟨rfl, rfl, rfl, rfl, fun _ => rfl, fun _ => rfl, fun _ => rfl⟩

/-- C4: an x-userinfo value that is valid header text but not valid canonical
padded standard base64 extracts to Base64DecodeError. -/
theorem invalid_b64_error (T : Type) (jsonDecode : List Nat → Except String T)
    (req : HttpRequest) (raw : List Nat)
    (hget : headerGet req X_USER_INFO_HEADER = some raw)
    (htext : raw.all isVisibleAscii = true)
    (hinv : ¬ IsValidStdB64 raw) :
    ∃ e, try_from T jsonDecode req = .error (.Base64DecodeError e) := by
  obtain ⟨e, he⟩ := b64Decode_err_of_not_valid hinv
  refine ⟨e, ?_⟩
  unfold try_from
  rw [hget]
  simp [headerValueToStr, htext, he]

/-- Witness for C4 at a header value of four exclamation marks. -/
theorem invalid_b64_error_witness :
    ∃ e, try_from CustomXUserInfo parseCustom reqBadB64 =
      .error (.Base64DecodeError e) :=
  invalid_b64_error CustomXUserInfo parseCustom reqBadB64 [33, 33, 33, 33]
    (by decide) (by decide)
    (fun hvalid => by
      obtain ⟨bs, hb, henc⟩ := hvalid
      have hd : b64Decode [33, 33, 33, 33] = .ok bs := by
        rw [← henc]
        exact b64Decode_b64Encode bs hb
      have : b64Decode [33, 33, 33, 33] = .error (.InvalidByte 0 33) := by decide
      rw [this] at hd
      exact Except.noConfusion hd)

/-- C5: when the x-userinfo value is valid header text and valid base64 but
the decoded bytes fail JSON deserialization into T (malformed JSON, missing
field, or wrong type), extraction returns JsonDecodeError. -/
theorem json_error (T : Type) (jsonDecode : List Nat → Except String T)
    (req : HttpRequest) (raw bytes : List Nat) (e : String)
    (hget : headerGet req X_USER_INFO_HEADER = some raw)
    (htext : raw.all isVisibleAscii = true)
    (hb64 : b64Decode raw = .ok bytes)
    (hjson : jsonDecode bytes = .error e) :
    try_from T jsonDecode req = .error (.JsonDecodeError e) := by
  unfold try_from
  rw [hget]
  simp [headerValueToStr, htext, hb64, hjson]

/-- Witness for C5: base64 of an empty JSON object misses the required field
sub of CustomXUserInfo. -/
theorem json_error_witness :
    try_from CustomXUserInfo parseCustom reqEmptyObj =
      .error (.JsonDecodeError "missing field `sub`") :=
  json_error CustomXUserInfo parseCustom reqEmptyObj
    (b64Encode (strBytes "\x7b\x7d")) (strBytes "\x7b\x7d") "missing field `sub`"
    (by decide) (by decide) (by decide) (by decide)

/-- C6: an x-userinfo value that is present but not valid header text (some
byte fails the visible-ASCII rule of HeaderValue::to_str) extracts to
ToStringError carrying the text-decoding failure. -/
theorem toStr_error (T : Type) (jsonDecode : List Nat → Except String T)
    (req : HttpRequest) (raw : List Nat)
    (hget : headerGet req X_USER_INFO_HEADER = some raw)
    (htext : raw.all isVisibleAscii = false) :
    try_from T jsonDecode req = .error (.ToStringError .mk) := by
  unfold try_from
  rw [hget]
  simp [headerValueToStr, htext]

/-- Witness for C6 at a header value holding UTF-8 bytes of a non-ASCII
character. -/
theorem toStr_error_witness :
    try_from CustomXUserInfo parseCustom reqNonAscii =
      .error (.ToStringError .mk) :=
  toStr_error CustomXUserInfo parseCustom reqNonAscii [195, 169]
    (by decide) (by decide)

/-- ToStrError has a single value. -/
theorem ToStrError.eq_mk (te : ToStrError) : te = .mk := by cases te; rfl

/-- C7: stages run in the fixed order header lookup, text validation, base64
decode, JSON decode; each error arises exactly when its stage is the first to
fail, a value is produced exactly when all stages succeed, and once an
earlier stage fails the JSON stage is never attempted (the result does not
depend on the JSON decoder at all). -/
theorem stage_order (T : Type) (jsonDecode : List Nat → Except String T)
    (req : HttpRequest) :
    (try_from T jsonDecode req = .error .MissingHeader ↔
      headerGet req X_USER_INFO_HEADER = none) ∧
    (∀ te, try_from T jsonDecode req = .error (.ToStringError te) ↔
      ∃ raw, headerGet req X_USER_INFO_HEADER = some raw ∧
        raw.all isVisibleAscii = false) ∧
    (∀ be, try_from T jsonDecode req = .error (.Base64DecodeError be) ↔
      ∃ raw, headerGet req X_USER_INFO_HEADER = some raw ∧
        raw.all isVisibleAscii = true ∧ b64Decode raw = .error be) ∧
    (∀ je, try_from T jsonDecode req = .error (.JsonDecodeError je) ↔
      ∃ raw bytes, headerGet req X_USER_INFO_HEADER = some raw ∧
        raw.all isVisibleAscii = true ∧ b64Decode raw = .ok bytes ∧
        jsonDecode bytes = .error je) ∧
    (∀ w : XUserInfo T, try_from T jsonDecode req = .ok w ↔
      ∃ raw bytes, headerGet req X_USER_INFO_HEADER = some raw ∧
        raw.all isVisibleAscii = true ∧ b64Decode raw = .ok bytes ∧
        jsonDecode bytes = .ok w.val) ∧
    (∀ jsonDecode' : List Nat → Except String T,
      (¬ ∃ raw bytes, headerGet req X_USER_INFO_HEADER = some raw ∧
          raw.all isVisibleAscii = true ∧ b64Decode raw = .ok bytes) →
      try_from T jsonDecode req = try_from T jsonDecode' req) := by
  cases hget : headerGet req X_USER_INFO_HEADER with
  | none => simp [try_from, hget]
  | some raw =>
    cases hvis : raw.all isVisibleAscii with
    | false =>
      have hcontra : ¬ ∀ x ∈ raw, isVisibleAscii x = true := by
        intro hall
        exact absurd (List.all_eq_true.mpr hall) (by simp [hvis])
      have hex : ∃ x ∈ raw, isVisibleAscii x = false := by
        simpa using List.all_eq_false.mp hvis
      simp [try_from, hget, headerValueToStr, hvis, ToStrError.eq_mk, hcontra, hex]
    | true =>
      have hall : ∀ x ∈ raw, isVisibleAscii x = true := List.all_eq_true.mp hvis
      cases hb : b64Decode raw with
      | error e =>
        simp [try_from, hget, headerValueToStr, hvis, hb]
        exact ⟨fun _ => hall, hall⟩
      | ok bytes =>
        cases hj : jsonDecode bytes with
        | error je =>
          simp [try_from, hget, headerValueToStr, hvis, hb, hj]
          refine ⟨fun _ => hall, hall, ?_⟩
          intro dec' x hx hfalse
          rw [hall x hx] at hfalse
          exact absurd hfalse (by simp)
        | ok v =>
          simp [try_from, hget, headerValueToStr, hvis, hb, hj]
          refine ⟨fun _ => hall, ?_, ?_⟩
          · intro w
            constructor
            · intro hw
              exact ⟨hall, by rw [← hw]⟩
            · rintro ⟨-, hw⟩
              rw [hw]
          · intro dec' x hx hfalse
            rw [hall x hx] at hfalse
            exact absurd hfalse (by simp)

/-- Witness for C7: a base64-failing request gives Base64DecodeError via the
characterization, and its result is independent of the JSON decoder. -/
theorem stage_order_witness :
    try_from CustomXUserInfo parseCustom reqBadB64 =
      .error (.Base64DecodeError (.InvalidByte 0 33)) ∧
    try_from CustomXUserInfo parseCustom reqBadB64 =
      try_from CustomXUserInfo (fun _ => .ok testValue) reqBadB64 := by
  have h := stage_order CustomXUserInfo parseCustom reqBadB64
  constructor
  · exact (h.2.2.1 (.InvalidByte 0 33)).mpr
      ⟨[33, 33, 33, 33], by decide, by decide, by decide⟩
  · refine h.2.2.2.2.2 (fun _ => .ok testValue) ?_
    rintro ⟨raw, bytes, hget, hvis, hb⟩
    have hraw : raw = [33, 33, 33, 33] := by
      have : headerGet reqBadB64 X_USER_INFO_HEADER = some [33, 33, 33, 33] := by decide
      rw [this] at hget
      exact (Option.some.injEq _ _ ▸ hget).symm
    subst hraw
    have : b64Decode [33, 33, 33, 33] = .error (.InvalidByte 0 33) := by decide
    rw [this] at hb
    exact Except.noConfusion hb

/-- C8: the implicit framework extraction from_request is the immediately
resolved future holding exactly the result of the explicit TryFrom
conversion. -/
theorem from_request_eq_try_from (T : Type)
    (jsonDecode : List Nat → Except String T) (req : HttpRequest) (p : Payload) :
    from_request T jsonDecode req p = ready (try_from T jsonDecode req) ∧
    (from_request T jsonDecode req p).value = try_from T jsonDecode req :=
  ⟨rfl, rfl⟩

/-- C9: extraction is deterministic and a pure function of the request's
x-userinfo header state: two invocations on one request agree, and any two
requests with the same x-userinfo lookup result extract identically. -/
theorem extraction_pure (T : Type) (jsonDecode : List Nat → Except String T)
    (r1 r2 : HttpRequest)
    (h : headerGet r1 X_USER_INFO_HEADER = headerGet r2 X_USER_INFO_HEADER) :
    try_from T jsonDecode r1 = try_from T jsonDecode r1 ∧
    try_from T jsonDecode r1 = try_from T jsonDecode r2 := by
  refine ⟨rfl, ?_⟩
  unfold try_from
  rw [h]

/-- Witness for C9: requests differing in method and target but not in the
x-userinfo header extract identically. -/
theorem extraction_pure_witness :
    try_from CustomXUserInfo parseCustom reqTest =
      try_from CustomXUserInfo parseCustom reqTest ∧
    try_from CustomXUserInfo parseCustom reqTest =
      try_from CustomXUserInfo parseCustom reqTestPost :=
  extraction_pure CustomXUserInfo parseCustom reqTest reqTestPost (by decide)

/-- C10: the text stage accepts a value exactly when every byte satisfies the
http crate's visible-ASCII predicate (32..=126 or tab), so any value with a
byte at or above 128 (in particular valid UTF-8 holding a non-ASCII
character) is rejected with ToStringError; and for every request whose
headers hold an x-userinfo occurrence (any case), the first such occurrence
alone determines extraction: headers before it and everything after it,
later x-userinfo occurrences included, are ignored. -/
theorem visible_ascii_first_header (T : Type)
    (jsonDecode : List Nat → Except String T) :
    (∀ raw, (∃ s, headerValueToStr raw = .ok s) ↔ raw.all isVisibleAscii = true) ∧
    (∀ b, isVisibleAscii b = true ↔ (32 ≤ b ∧ b < 127) ∨ b = 9) ∧
    (∀ raw req, (∃ x ∈ raw, 128 ≤ x) →
      headerGet req X_USER_INFO_HEADER = some raw →
      try_from T jsonDecode req = .error (.ToStringError .mk)) ∧
    (∀ req pre n1 v1 hs,
      req.headers = pre ++ (n1, v1) :: hs →
      (∀ p ∈ pre, asciiLower p.1 ≠ asciiLower X_USER_INFO_HEADER) →
      asciiLower n1 = asciiLower X_USER_INFO_HEADER →
      try_from T jsonDecode req =
        try_from T jsonDecode
          { method := req.method, uri := req.uri,
            headers := [(X_USER_INFO_HEADER, v1)] }) := by
  refine ⟨?_, ?_, ?_, ?_⟩
  · intro raw
    unfold headerValueToStr
    cases hvis : raw.all isVisibleAscii with
    | false => simp
    | true => simp
  · intro b
    simp [isVisibleAscii]
  · intro raw req hbyte hget
    obtain ⟨x, hx, hxge⟩ := hbyte
    have hvis : raw.all isVisibleAscii = false := by
      rw [List.all_eq_false]
      refine ⟨x, hx, ?_⟩
      simp [isVisibleAscii]
      omega
    unfold try_from
    rw [hget]
    simp [headerValueToStr, hvis]
  · intro req pre n1 v1 hs hh hpre hn1
    have hfind : ∀ l : List (String × List Nat),
        (∀ p ∈ l, asciiLower p.1 ≠ asciiLower X_USER_INFO_HEADER) →
        (l ++ (n1, v1) :: hs).find?
          (fun p => asciiLower p.1 == asciiLower X_USER_INFO_HEADER) = some (n1, v1) := by
      intro l
      induction l with
      | nil =>
        intro _
        simp [List.find?, hn1]
      | cons q qs ih =>
        intro hq
        have hqf : (asciiLower q.1 == asciiLower X_USER_INFO_HEADER) = false := by
          simp only [beq_eq_false_iff_ne, ne_eq]
          exact hq q (by simp)
        rw [List.cons_append, List.find?_cons_of_neg _ (by simp [hqf])]
        exact ih (fun p hp => hq p (by simp [hp]))
    have h1 : headerGet req X_USER_INFO_HEADER = some v1 := by
      unfold headerGet
      rw [hh, hfind pre hpre]
      rfl
    have h2 : headerGet
        { method := req.method, uri := req.uri,
          headers := [(X_USER_INFO_HEADER, v1)] } X_USER_INFO_HEADER = some v1 := by
      unfold headerGet
      simp [List.find?]
    unfold try_from
    rw [h1, h2]

/-- Witness for C10: a non-ASCII value is rejected; and a request whose two
x-userinfo headers sit behind an accept header, the first of them cased
X-UserInfo, extracts like a request carrying only that first occurrence. -/
theorem visible_ascii_first_header_witness :
    try_from CustomXUserInfo parseCustom reqNonAscii =
      .error (.ToStringError .mk) ∧
    try_from CustomXUserInfo parseCustom reqMixedHeaders =
      try_from CustomXUserInfo parseCustom
        { method := reqMixedHeaders.method, uri := reqMixedHeaders.uri,
          headers := [(X_USER_INFO_HEADER, b64Encode (jsonEncodeCustom testValue))] } := by
  have h := visible_ascii_first_header CustomXUserInfo parseCustom
  exact ⟨h.2.2.1 [195, 169] reqNonAscii ⟨195, by decide, by decide⟩ (by decide),
    h.2.2.2 reqMixedHeaders [("accept", strBytes "*/*")] "X-UserInfo"
      (b64Encode (jsonEncodeCustom testValue)) [(X_USER_INFO_HEADER, [33, 33, 33, 33])]
      rfl (by decide) (by decide)⟩

end ApisixRs
